import Mathlib

/-!
Verification development for the polymer assembly engine of
`LogP/MakePolymer.py` (repository CAREERS-Cyberteam/MHP).

The Python source is shallowly embedded:
* SMILES notation strings are `List Char` (`Str`);
* the monomer / end-group lookup dictionaries live in `smiles.py`, which is
  not part of the sources under verification, so they are parameters of type
  `Dict := Str → Option Str` (modelled from the spec: "static mappings from
  short keys to molecular-notation fragments");
* Python exceptions become `Except PyErr` / `Option`;
* RDKit molecules become an explicit connectivity graph `Mol` (atoms with
  atomic number and an optional `atomNote` property, plus a bond list);
  `Chem.MolFromSmiles` / `Chem.MolToSmiles` are external toolkit calls and are
  kept at the boundary of the embedded functions.
-/

namespace MHP

/-- Notation strings (Python `str`) as lists of characters. -/
abbrev Str := List Char

/-- Coerce a Lean string literal to the `Str` representation. -/
def strL (s : String) : Str := s.data

/-- The Python exceptions raised by the engine. -/
inductive PyErr where
  | typeError
  | valueError
  | indexError
  | keyError
  | nameError
  | exceptionErr
deriving DecidableEq, Repr

deriving instance DecidableEq for Except

/-- Lookup tables (`monomer_dict`, `init_dict` from `smiles.py`).
Modelled from the spec: static mappings from short keys to
molecular-notation fragments; the concrete table contents are not part of
the verified sources, so a table is any partial map. -/
abbrev Dict := Str → Option Str

/-- Accumulator for `pyInt`: consume decimal digits. -/
def digitsValAux : List Char → Nat → Option Nat
  | [], acc => some acc
  | c :: rest, acc =>
    if c.isDigit then digitsValAux rest (acc * 10 + (c.toNat - 48)) else none

/-- Value of a nonempty all-digit character list. -/
def digitsVal : List Char → Option Nat
  | [] => none
  | cs => digitsValAux cs 0

/-- Python `int(s)` on a token: optional sign followed by decimal digits,
`none` when the call would raise `ValueError`.  (Surrounding whitespace and
underscore separators, which CLI tokens never carry here, are not modelled.) -/
def pyInt (s : Str) : Option Int :=
  match s with
  | '+' :: rest => (digitsVal rest).map (fun n => (n : Int))
  | '-' :: rest => (digitsVal rest).map (fun n => -(n : Int))
  | _ => (digitsVal s).map (fun n => (n : Int))

/-- `getRepeatUnit(single, super)` (MakePolymer.py lines 48-55).
`list(filter(None, [single, super]))[0]`: `filter(None, ·)` drops falsy
values (`None`, the empty string, the empty list); indexing an empty result
raises `IndexError`. -/
def getRepeatUnit (single : Option Str) (super : Option (List Str)) :
    Except PyErr (Sum Str (List Str)) :=
  if single.isSome && super.isSome then .error .typeError
  else
    match
      ((match single with
        | some s => if s = [] then [] else [Sum.inl s]
        | none => []) ++
       (match super with
        | some l => if l = [] then [] else [Sum.inr l]
        | none => []) : List (Sum Str (List Str))) with
    | x :: _ => .ok x
    | [] => .error .indexError

/-- `monomer_smi_lookup(m)` (lines 57-60): a plain dictionary access,
`KeyError` when the key is absent.  The `@cache` decorator memoizes a pure
function and is semantically transparent. -/
def monomer_smi_lookup (mdict : Dict) (m : Str) : Except PyErr Str :=
  match mdict m with
  | some r => .ok r
  | none => .error .keyError

/-- `inator_smi_lookup(i, t)` (lines 62-69): dictionary value when the key is
known, otherwise the string itself is assumed to be raw SMILES. -/
def inator_smi_lookup (idict : Dict) (i t : Str) : Str × Str :=
  ((idict i).getD i, (idict t).getD t)

/-- The spec's "lookup-or-literal" resolution rule, stated from the spec's
words for comparison with the code's single-key path. -/
def spec_lookup_or_literal (d : Dict) (x : Str) : Str := (d x).getD x

/-- Result of end-group validation: plain text, or a parsed-structure handle
(`Chem.MolFromSmiles(inator)`; the external parse is kept symbolic, the
handle records the SMILES it was parsed from). -/
inductive EndVal where
  | text (s : Str)
  | molHandle (s : Str)
deriving DecidableEq, Repr

/-- `validate_end_group(inator, Init=..., Term=...)` (lines 71-89). -/
def validate_end_group (inator : Str) (Init Term : Bool) : Except PyErr EndVal :=
  if Init = false ∧ Term = false then .error .valueError
  else
    -- idx = 0 for an initiator, -1 for a terminator
    let bchar : Option Char := if Init then inator.head? else inator.getLast?
    if inator ≠ [] ∧ bchar = some '*' then .ok (.molHandle inator)
    else if inator ≠ inator.reverse ∧ '*' ∉ inator then .error .valueError
    else .ok (.text (inator.filter (fun c => c != '*')))

/-- The token-scanning loop of `get_building_blocks` (lines 105-113):
`repeat_unit` accumulates, a token parseable as `int` resets the pending
coefficient, any other token is appended `repeat_coef` times (Python string
repetition: a non-positive coefficient yields the empty string). -/
def repeat_unit_loop : List Str → Int → Str → Str
  | [], _, acc => acc
  | e :: rest, coef, acc =>
    match pyInt e with
    | some k => repeat_unit_loop rest k acc
    | none => repeat_unit_loop rest 1 (acc ++ (List.replicate coef.toNat e).flatten)

/-- `get_building_blocks(i, t, m)` (lines 91-121).  `m` is either a single
monomer key (`Sum.inl`) or the token list of a super-monomer (`Sum.inr`). -/
def get_building_blocks (idict mdict : Dict) (i t : Str) (m : Sum Str (List Str)) :
    Except PyErr (EndVal × EndVal × Str × Int) := do
  let (init0, term0) := inator_smi_lookup idict i t
  let (repeat_unit, monomers_per_n) ←
    match m with
    | Sum.inr tokens => do
      -- replace any dict keys with corresponding smiles
      let deciphered := tokens.map (fun x => (mdict x).getD x)
      -- explicit_coefs = [int(x) if len(x) == 1 else 0 for x in deciphered]
      let explicit_coefs ← deciphered.mapM (fun x =>
        if x.length = 1 then
          match pyInt x with
          | some v => Except.ok v
          | none => Except.error PyErr.valueError
        else Except.ok (0 : Int))
      -- sum_implicit_coefs = len(deciphered) - len(explicit_coefs)
      let sum_implicit_coefs : Int :=
        (deciphered.length : Int) - (explicit_coefs.length : Int)
      let monomers_per_n := explicit_coefs.sum + sum_implicit_coefs
      Except.ok (repeat_unit_loop deciphered 1 [], monomers_per_n)
    | Sum.inl mkey =>
      match monomer_smi_lookup mdict mkey with
      | Except.ok ru => Except.ok (ru, (1 : Int))
      | Except.error e => Except.error e
  let init ← validate_end_group init0 true false
  let term ← validate_end_group term0 false true
  Except.ok (init, term, repeat_unit, monomers_per_n)

mutual

/-- The spec's description of multi-token resolution, written from the
claim's words: the fragment is the in-order concatenation of the non-numeric
tokens, each repeated by the multiplier given by the immediately preceding
numeric token (default 1 when omitted, reset afterwards). -/
def spec_multi_fragment : List Str → Str
  | [] => []
  | x :: rest =>
    match pyInt x with
    | some k => spec_with_mult k rest
    | none => x ++ spec_multi_fragment rest

/-- Companion of `spec_multi_fragment`: the immediately preceding token was
numeric with value `k`, which multiplies the next non-numeric token. -/
def spec_with_mult (k : Int) : List Str → Str
  | [] => []
  | y :: rest =>
    match pyInt y with
    | some k2 => spec_with_mult k2 rest
    | none => (List.replicate k.toNat y).flatten ++ spec_multi_fragment rest

end

/-- Example monomer table used in concrete evaluations: `A ↦ CC`, `B ↦ CCO`. -/
def mdict0 : Dict := fun s =>
  if s = strL "A" then some (strL "CC")
  else if s = strL "B" then some (strL "CCO")
  else none

/-- Example end-group table: empty (every key resolves to itself). -/
def idict0 : Dict := fun _ => none

/-- The structural-fusion fallback of `add_inator_smiles` is
`attatch_frags`, which goes through the external SMILES parser and
serializer (`Chem.MolFromSmiles` / `Chem.MolToSmiles`).  At the string level
that round trip is abstracted as a function from the marked polymer string
and the two `(flag, end-group)` pairs to the fused SMILES (or an error). -/
abbrev FuseFn := Str → Bool × EndVal → Bool × EndVal → Except PyErr Str

/-- `add_inator_smiles(smi, init, term)` (lines 188-215).  The returned
`Bool` records whether the structural-fusion fallback (`attatch_frags`) was
invoked, i.e. the value of `add_terminator or add_initiator` at line 210. -/
def add_inator_smiles (fuse : FuseFn) (smi : Str) (init term : EndVal) :
    Except PyErr (Str × Bool) :=
  -- type(init) != str means a mol object was returned by the validator
  let p1 : Str × Bool :=
    match init with
    | .molHandle _ => ('*' :: smi, true)
    | .text s => (s ++ smi, false)
  let p2 : Str × Bool :=
    match term with
    | .molHandle _ => (p1.1 ++ ['*'], true)
    | .text s => (p1.1 ++ s, false)
  if p2.2 || p1.2 then
    (fuse p2.1 (p1.2, init) (p2.2, term)).map (fun s => (s, true))
  else .ok (p2.1, false)

/-- `createPolymerSMILES(i, n, r, t)` without the `test` flag
(lines 217-235): `polymer_SMILES = n * repeat_unit` then end-group
attachment.  Python string repetition with a non-positive `n` yields the
empty string, hence `n.toNat`. -/
def createPolymerSMILES (fuse : FuseFn) (idict mdict : Dict) (i : Str) (n : Int)
    (r : Sum Str (List Str)) (t : Str) : Except PyErr ((Str × Bool) × Int) := do
  let (init, term, repeat_unit, m_per_n) ← get_building_blocks idict mdict i t r
  let polymer_SMILES := (List.replicate n.toNat repeat_unit).flatten
  let full ← add_inator_smiles fuse polymer_SMILES init term
  Except.ok (full, m_per_n)

/-- `createPolymerSMILES(..., test=True)` (lines 217-235): additionally
builds the `n = 1` preview (`test_smi`) before the full chain. -/
def createPolymerSMILES_test (fuse : FuseFn) (idict mdict : Dict) (i : Str) (n : Int)
    (r : Sum Str (List Str)) (t : Str) :
    Except PyErr ((Str × Bool) × (Str × Bool) × Int) := do
  let (init, term, repeat_unit, m_per_n) ← get_building_blocks idict mdict i t r
  let polymer_SMILES := (List.replicate n.toNat repeat_unit).flatten
  let test_smi ← add_inator_smiles fuse repeat_unit init term
  let full ← add_inator_smiles fuse polymer_SMILES init term
  Except.ok (test_smi, full, m_per_n)

/-- Placeholder test on notation.  Modelled from the spec: the placeholder
marker `*` in a notation fragment denotes an open (unformed) attachment
point, which the external parser turns into an atomic-number-0 atom of the
structure. -/
def hasPlaceholder (s : Str) : Bool := s.contains '*'

/-! ### Connectivity-graph layer (RDKit molecules)

`attatch_frags` (lines 123-186) manipulates parsed molecules.  A molecule is
a list of atoms (atomic number plus the optional `atomNote` property used
for the head/tail/attatch/done bookkeeping) and a list of bonds, each bond
an ordered pair of atom indices plus a bond type.  `Chem.MolFromSmiles` at
line 124 and `Chem.MolToSmiles` at line 185 are external toolkit calls, so
the embedded function takes the parsed chain molecule and returns the final
molecule (the serialization to notation is outside the model). -/

/-- An atom: atomic number and optional `atomNote` property. -/
structure Atom where
  atomicNum : Nat
  note : Option String
deriving DecidableEq, Repr

/-- Bond type: the engine only ever adds SINGLE bonds; parsed bonds may have
any type. -/
inductive BondType where
  | single
  | other
deriving DecidableEq, Repr

/-- A molecule as a connectivity graph.  Bonds are kept in insertion order,
as RDKit does. -/
structure Mol where
  atoms : List Atom
  bonds : List (Nat × Nat × BondType)
deriving DecidableEq, Repr

/-- `[a.GetIdx() for a in mol.GetAtoms() if p(a)]`: indices (starting at
`k`) of the atoms satisfying `p`, in order. -/
def idxsWhere (p : Atom → Bool) : List Atom → Nat → List Nat
  | [], _ => []
  | a :: as, k => if p a then k :: idxsWhere p as (k + 1) else idxsWhere p as (k + 1)

/-- Indices of the placeholder ("dummy", atomic number 0) atoms. -/
def Mol.fakeAtoms (m : Mol) : List Nat :=
  idxsWhere (fun a => a.atomicNum == 0) m.atoms 0

/-- Indices of the atoms carrying an `atomNote` property. -/
def Mol.notedIdxs (m : Mol) : List Nat :=
  idxsWhere (fun a => a.note.isSome) m.atoms 0

/-- The `atomNote` property of atom `i`, if any. -/
def Mol.noteAt (m : Mol) (i : Nat) : Option String :=
  (m.atoms.get? i).bind (fun a => a.note)

/-- Neighbor indices of atom `x`, in bond-insertion order (RDKit's
`GetNeighbors` order for molecules built this way). -/
def Mol.neighbors (m : Mol) (x : Nat) : List Nat :=
  m.bonds.filterMap (fun b =>
    if b.1 = x then some b.2.1 else if b.2.1 = x then some b.1 else none)

/-- Helper for `Mol.setNote`. -/
def setNoteList : List Atom → Nat → String → List Atom
  | [], _, _ => []
  | a :: as, 0, s => { a with note := some s } :: as
  | a :: as, k + 1, s => a :: setNoteList as k s

/-- `mol.GetAtomWithIdx(i).SetProp("atomNote", s)`. -/
def Mol.setNote (m : Mol) (i : Nat) (s : String) : Mol :=
  { m with atoms := setNoteList m.atoms i s }

/-- `RWMol.AddBond(i, j, type)`: appends a bond. -/
def Mol.addBond (m : Mol) (i j : Nat) (bt : BondType) : Mol :=
  { m with bonds := m.bonds ++ [(i, j, bt)] }

/-- `Chem.CombineMols(A, B)`: atoms of `A` first, atoms of `B` shifted. -/
def Mol.combine (A B : Mol) : Mol :=
  { atoms := A.atoms ++ B.atoms,
    bonds := A.bonds ++ B.bonds.map (fun b =>
      (b.1 + A.atoms.length, b.2.1 + A.atoms.length, b.2.2)) }

/-- `RWMol.RemoveAtom(i)`: drops atom `i` and its incident bonds and shifts
the higher atom indices down, as RDKit does. -/
def Mol.removeAtom (m : Mol) (i : Nat) : Mol :=
  { atoms := m.atoms.eraseIdx i,
    bonds := m.bonds.filterMap (fun b =>
      if b.1 = i || b.2.1 = i then none
      else some ((if i < b.1 then b.1 - 1 else b.1),
                 (if i < b.2.1 then b.2.1 - 1 else b.2.1), b.2.2)) }

/-- `[i for i in attachments if mol.GetAtomWithIdx(i).GetProp("atomNote") == s][0]`
where `attachments` are the noted atoms: the first noted atom whose note is
`s`. -/
def Mol.findNoted (m : Mol) (s : String) : Option Nat :=
  (m.notedIdxs.filter (fun i => m.noteAt i == some s)).get? 0

/-- Which original argument an end group in the `inators` list came from.
In the source the loop compares `inator == add_initiator[1]` /
`inator == add_terminator[1]`; on RDKit mol objects `==` is reference
identity, and the list elements are the very objects that were passed in,
so the comparison is equivalent to remembering the provenance of each list
element (the two arguments are always distinct objects at the call site). -/
inductive Role where
  | initR
  | termR
deriving DecidableEq, Repr

/-- One pass of the fusion loop, recorded for the statement of the
invariants: the role it served, the end-group molecule as passed in, the
combined molecule just before `AddBond`, and the two endpoints of the bond
that was formed (`bond_here` on the chain, `attach_idx` on the end group). -/
structure FusionStep where
  role : Role
  inator : Mol
  merged : Mol
  bond_here : Nat
  attach_idx : Nat
deriving DecidableEq, Repr

/-- The `for inator in inators` loop of `attatch_frags` (lines 149-175).
Each pass: find the end group's placeholder neighbors, note the first as
"attatch", combine with the running molecule, locate the noted attachment
atoms, form one SINGLE bond, and relabel the end-group atom "done".
`none` models the IndexErrors of the `[...][0]` accesses. -/
def attatch_loop : List (Role × Mol) → Mol → Option (Mol × List FusionStep)
  | [], mergedrw => some (mergedrw, [])
  | (role, inator) :: rest, mergedrw =>
    match (inator.fakeAtoms.mapM (fun x => (inator.neighbors x).head?)).bind
        (fun cands => cands.get? 0) with
    | none => none
    | some attatch =>
      let inator2 := inator.setNote attatch "attatch"
      let merged := Mol.combine inator2 mergedrw
      match merged.findNoted "attatch" with
      | none => none
      | some inator_attatchment =>
        match (match role with
               | Role.initR => merged.findNoted "head"
               | Role.termR => merged.findNoted "tail") with
        | none => none
        | some bond_here =>
          let next := (merged.addBond bond_here inator_attatchment BondType.single).setNote
            inator_attatchment "done"
          match attatch_loop rest next with
          | none => none
          | some (fin, log) =>
            some (fin, { role := role, inator := inator, merged := merged,
                         bond_here := bond_here, attach_idx := inator_attatchment } :: log)

/-- The dummy-removal loop of `attatch_frags` (lines 177-183): `k` times,
recompute the placeholder indices and remove the first one (`none` when the
recomputed list is empty, i.e. the `[...][0]` access would raise). -/
def remove_loop : Nat → Mol → Option Mol
  | 0, m => some m
  | k + 1, m =>
    match m.fakeAtoms.get? 0 with
    | none => none
    | some i => remove_loop k (m.removeAtom i)

/-- `attatch_frags(polymer_smiles, add_initiator=..., add_terminator=...)`
(lines 123-186) on the already-parsed chain molecule.  Returns the final
molecule (serialized by the external `MolToSmiles` in the source), together
with the merged molecule just before dummy removal and the per-end fusion
log, which the theorems below quantify over.  The second component of each
argument pair is only read when its flag is `true` (in the source it then
always holds the mol object built by the validator). -/
def attatch_frags (pol : Mol) (add_initiator : Bool × Mol) (add_terminator : Bool × Mol) :
    Option (Mol × Mol × List FusionStep) :=
  match pol.fakeAtoms.mapM (fun x => (pol.neighbors x).head?) with
  | none => none
  | some conn_atoms =>
    -- the if/elif/else on the two flags (lines 131-145)
    match (match add_initiator.1, add_terminator.1 with
          | true, true =>
            match conn_atoms.get? 0 with
            | none => none
            | some c0 =>
              match conn_atoms.get? 1 with
              | none => none
              | some c1 =>
                some ((pol.setNote c0 "head").setNote c1 "tail",
                  [(Role.initR, add_initiator.2), (Role.termR, add_terminator.2)])
          | true, false =>
            match conn_atoms.get? 0 with
            | none => none
            | some c0 => some (pol.setNote c0 "head", [(Role.initR, add_initiator.2)])
          | false, true =>
            match conn_atoms.get? 0 with
            | none => none
            | some c0 => some (pol.setNote c0 "tail", [(Role.termR, add_terminator.2)])
          | false, false => none : Option (Mol × List (Role × Mol))) with
    | none => none
    | some (pol2, inators) =>
      match attatch_loop inators pol2 with
      | none => none
      | some (mergedFinal, log) =>
        match remove_loop mergedFinal.fakeAtoms.length mergedFinal with
        | none => none
        | some final => some (final, mergedFinal, log)

/-! ### Chain-family driver (`make_One_or_More_Polymers`, lines 291-333)

3D embedding and minimization (`optPol`, lines 237-264) are the external
modeling capability; the driver is parametrized by an abstract
`optPol : Str → α × β` returning the hydrogen-explicit 3D structure and the
2D structure.  A trace of observable events records each confirmation
prompt and each conformer-generation call, in order. -/

/-- Observable events of a run: one confirmation prompt, or one call into
the 3D embedding/minimization collaborator on a given notation. -/
inductive Event where
  | confirmEv
  | embedEv (smi : Str)
deriving DecidableEq, Repr

/-- The acceptance test of `confirmStructure` (lines 279-285): affirmative
is `y`/`Y` (`inp.lower() == "y"`) or just hitting enter. -/
def confirmStructure_accepts (resp : Str) : Bool :=
  (resp.map Char.toLower == strL "y") || (resp == [])

/-- `range(a, b)` over Python ints. -/
def pyRange (a b : Int) : List Int :=
  (List.range (b - a).toNat).map (fun k : Nat => a + (k : Int))

/-- Mutable state of the plotting loop: the `proceed` flag, the three
accumulating collections, and the Python variables `m_per_n` / `smi`
(which persist across iterations and are unbound before first assignment),
plus the event trace. -/
structure LoopState (α β : Type) where
  proceed : Bool
  POL_LIST : List α
  SMI_LIST : List Str
  Unopt : List β
  m_per_n : Option Int
  lastSmi : Option Str
  trace : List Event
deriving DecidableEq, Repr

/-- Result of the plotting loop: normal completion, clean user abort
(`quit()` inside `confirmStructure`), or a propagating exception. -/
inductive LoopRes (α β : Type) where
  | done (st : LoopState α β)
  | userAbort (trace : List Event)
  | fail (e : PyErr) (trace : List Event)
deriving DecidableEq, Repr

/-- One iteration of the `for j in N_array` loop (lines 304-320): the
`j == 1 and confirm and not proceed` confirmation branch, the
`j > 1 or not confirm` recomputation branch, then `optPol(smi)` and the
three appends.  `Sum.inl` is an early exit of the whole loop. -/
def plot_iter (optPol : Str → α × β) (fuse : FuseFn) (idict mdict : Dict)
    (i : Str) (r : Sum Str (List Str)) (t : Str) (confirm : Bool) (resp : Str)
    (j : Int) (st : LoopState α β) : Sum (LoopRes α β) (LoopState α β) :=
  let s1 : Sum (LoopRes α β) (LoopState α β) :=
    if j = 1 ∧ confirm = true ∧ st.proceed = false then
      match createPolymerSMILES_test fuse idict mdict i j r t with
      | .error e => .inl (.fail e st.trace)
      | .ok (_test_smi, full, m) =>
        let tr := st.trace ++ [Event.confirmEv]
        if confirmStructure_accepts resp then
          .inr { st with proceed := true, m_per_n := some m,
                         lastSmi := some full.1, trace := tr }
        else .inl (.userAbort tr)
    else .inr st
  match s1 with
  | .inl res => .inl res
  | .inr stc =>
    let s2 : Sum (LoopRes α β) (LoopState α β) :=
      if 1 < j ∨ confirm = false then
        match createPolymerSMILES fuse idict mdict i j r t with
        | .error e => .inl (.fail e stc.trace)
        | .ok (full, m) => .inr { stc with m_per_n := some m, lastSmi := some full.1 }
      else .inr stc
    match s2 with
    | .inl res => .inl res
    | .inr st2 =>
      match st2.lastSmi with
      | none => .inl (.fail PyErr.nameError st2.trace)
      | some smi =>
        .inr { st2 with
          POL_LIST := st2.POL_LIST ++ [(optPol smi).1],
          SMI_LIST := st2.SMI_LIST ++ [smi],
          Unopt := st2.Unopt ++ [(optPol smi).2],
          trace := st2.trace ++ [Event.embedEv smi] }

/-- The `for j in N_array` loop over the requested lengths. -/
def polymer_plot_loop (optPol : Str → α × β) (fuse : FuseFn) (idict mdict : Dict)
    (i : Str) (r : Sum Str (List Str)) (t : Str) (confirm : Bool) (resp : Str) :
    List Int → LoopState α β → LoopRes α β
  | [], st => .done st
  | j :: rest, st =>
    match plot_iter optPol fuse idict mdict i r t confirm resp j st with
    | .inl res => res
    | .inr st2 => polymer_plot_loop optPol fuse idict mdict i r t confirm resp rest st2

/-- The two result shapes of `make_One_or_More_Polymers`: the per-length
family (plot branch) or a single chain. -/
inductive RunOut (α β : Type) where
  | plotOut (POL_LIST : List α) (SMI_LIST : List Str) (Unopt : List β) (m_per_n : Int)
  | singleOut (pol_h : α) (smi : Str) (pol : β) (m_per_n : Int)
deriving DecidableEq, Repr

/-- Overall outcome of a run: a result, a clean user abort, or an
exception. -/
inductive Outcome (α β : Type) where
  | ok (out : RunOut α β)
  | aborted
  | failed (e : PyErr)
deriving DecidableEq, Repr

/-- `make_One_or_More_Polymers(i, n, r, t, plot=..., confirm=...)`
(lines 291-333), with the operator's response `resp` to the (at most one)
confirmation prompt, returning the outcome and the event trace. -/
def make_One_or_More_Polymers (optPol : Str → α × β) (fuse : FuseFn) (idict mdict : Dict)
    (i : Str) (n : Int) (r : Sum Str (List Str)) (t : Str)
    (confirm : Bool) (resp : Str) (plot : Bool) : Outcome α β × List Event :=
  if plot then
    match polymer_plot_loop optPol fuse idict mdict i r t confirm resp (pyRange 1 (n + 1))
        { proceed := !confirm, POL_LIST := [], SMI_LIST := [], Unopt := [],
          m_per_n := none, lastSmi := none, trace := [] } with
    | .done st =>
      match st.m_per_n with
      | some m => (.ok (.plotOut st.POL_LIST st.SMI_LIST st.Unopt m), st.trace)
      | none => (.failed PyErr.nameError, st.trace)
    | .userAbort tr => (.aborted, tr)
    | .fail e tr => (.failed e, tr)
  else
    match createPolymerSMILES_test fuse idict mdict i n r t with
    | .error e => (.failed e, [])
    | .ok (_test_smi, full, m) =>
      if confirm then
        if confirmStructure_accepts resp then
          (.ok (.singleOut (optPol full.1).1 full.1 (optPol full.1).2 m),
            [Event.confirmEv, Event.embedEv full.1])
        else (.aborted, [Event.confirmEv])
      else
        (.ok (.singleOut (optPol full.1).1 full.1 (optPol full.1).2 m),
          [Event.embedEv full.1])

/-- A trivial stand-in for the external fusion round trip in concrete runs
that never reach it (or where its value is irrelevant). -/
def fuseId : FuseFn := fun s _ _ => Except.ok s

/-- Concrete parsed chain `*C`: one placeholder bonded to one carbon. -/
def polEx : Mol := ⟨[⟨0, none⟩, ⟨6, none⟩], [(0, 1, BondType.single)]⟩

/-- Concrete parsed end group `C*`: a carbon with a placeholder. -/
def inatorEx : Mol := ⟨[⟨6, none⟩, ⟨0, none⟩], [(0, 1, BondType.single)]⟩

/-- The molecule `attatch_frags polEx (true, inatorEx) (false, _)` produces
after dummy removal. -/
def finalEx : Mol :=
  ⟨[⟨6, some "done"⟩, ⟨6, some "head"⟩], [(1, 0, BondType.single)]⟩

/-- The merged molecule of the same run just before dummy removal. -/
def mergedEx : Mol :=
  ⟨[⟨6, some "done"⟩, ⟨0, none⟩, ⟨0, none⟩, ⟨6, some "head"⟩],
   [(0, 1, BondType.single), (2, 3, BondType.single), (3, 0, BondType.single)]⟩

/-- The fusion log of the same run. -/
def logEx : List FusionStep :=
  [{ role := Role.initR, inator := inatorEx,
     merged := ⟨[⟨6, some "attatch"⟩, ⟨0, none⟩, ⟨0, none⟩, ⟨6, some "head"⟩],
                [(0, 1, BondType.single), (2, 3, BondType.single)]⟩,
     bond_here := 3, attach_idx := 0 }]

/-- A trivial 3D-embedding collaborator used in concrete driver runs: the
structures it returns are irrelevant to the properties checked. -/
def optPolU : Str → Unit × Unit := fun _ => ((), ())

/-- The chain notation the driver builds at length `j` for repeat unit `CC`
with empty end groups. -/
def Fex : Int → Str := fun j => (List.replicate j.toNat (strL "CC")).flatten

/-! ## Helper lemmas -/

theorem repeat_unit_loop_append (toks : List Str) (k : Int) (acc : Str) :
    repeat_unit_loop toks k acc = acc ++ repeat_unit_loop toks k [] := by
  induction toks generalizing k acc with
  | nil => simp [repeat_unit_loop]
  | cons e rest ih =>
    simp only [repeat_unit_loop]
    cases h : pyInt e with
    | some k2 => exact ih k2 acc
    | none =>
      rw [ih 1 (acc ++ (List.replicate k.toNat e).flatten),
          ih 1 ([] ++ (List.replicate k.toNat e).flatten)]
      simp [List.append_assoc]

theorem spec_with_mult_one (toks : List Str) :
    spec_with_mult 1 toks = spec_multi_fragment toks := by
  induction toks with
  | nil => rfl
  | cons y rest ih =>
    simp only [spec_with_mult, spec_multi_fragment]
    cases h : pyInt y with
    | some k2 => rfl
    | none => simp

theorem repeat_unit_loop_eq_spec (toks : List Str) (k : Int) :
    repeat_unit_loop toks k [] = spec_with_mult k toks := by
  induction toks generalizing k with
  | nil => rfl
  | cons e rest ih =>
    simp only [repeat_unit_loop, spec_with_mult]
    cases h : pyInt e with
    | some k2 => exact ih k2
    | none =>
      rw [repeat_unit_loop_append, ih 1, spec_with_mult_one]
      simp

theorem validate_text_no_star (f : Str) (I T : Bool) (u : Str)
    (h : validate_end_group f I T = .ok (.text u)) : '*' ∉ u := by
  unfold validate_end_group at h
  by_cases hg : I = false ∧ T = false
  · rw [if_pos hg] at h
    simp at h
  · rw [if_neg hg] at h
    dsimp only at h
    by_cases h1 : f ≠ [] ∧ (if I = true then f.head? else f.getLast?) = some '*'
    · rw [if_pos h1] at h
      simp at h
    · rw [if_neg h1] at h
      by_cases h2 : f ≠ f.reverse ∧ '*' ∉ f
      · rw [if_pos h2] at h
        simp at h
      · rw [if_neg h2] at h
        simp only [Except.ok.injEq, EndVal.text.injEq] at h
        subst h
        intro hmem
        have := List.of_mem_filter hmem
        simp at this

theorem gbb_text_no_star (idict mdict : Dict) (i t : Str) (r : Sum Str (List Str))
    (a b ru : Str) (mpn : Int)
    (h : get_building_blocks idict mdict i t r = .ok (.text a, .text b, ru, mpn)) :
    '*' ∉ a ∧ '*' ∉ b := by
  cases r with
  | inl key =>
    unfold get_building_blocks at h
    simp only [Bind.bind, Except.bind, inator_smi_lookup] at h
    cases hk : monomer_smi_lookup mdict key with
    | error e =>
      rw [hk] at h
      simp at h
    | ok ru2 =>
      rw [hk] at h
      dsimp only at h
      cases hiv : validate_end_group ((idict i).getD i) true false with
      | error e =>
        rw [hiv] at h
        simp at h
      | ok iv =>
        rw [hiv] at h
        dsimp only at h
        cases htv : validate_end_group ((idict t).getD t) false true with
        | error e =>
          rw [htv] at h
          simp at h
        | ok tv =>
          rw [htv] at h
          simp only [pure, Except.pure, Except.ok.injEq, Prod.mk.injEq] at h
          obtain ⟨h1, h2, -, -⟩ := h
          subst h1
          subst h2
          exact ⟨validate_text_no_star _ _ _ _ hiv, validate_text_no_star _ _ _ _ htv⟩
  | inr tokens =>
    unfold get_building_blocks at h
    simp only [Bind.bind, Except.bind, inator_smi_lookup] at h
    cases hm : (List.map (fun x => (mdict x).getD x) tokens).mapM (fun x =>
        if x.length = 1 then
          match pyInt x with
          | some v => Except.ok v
          | none => Except.error PyErr.valueError
        else Except.ok (0 : Int)) with
    | error e =>
      rw [hm] at h
      simp at h
    | ok coefs =>
      rw [hm] at h
      dsimp only at h
      cases hiv : validate_end_group ((idict i).getD i) true false with
      | error e =>
        rw [hiv] at h
        simp at h
      | ok iv =>
        rw [hiv] at h
        dsimp only at h
        cases htv : validate_end_group ((idict t).getD t) false true with
        | error e =>
          rw [htv] at h
          simp at h
        | ok tv =>
          rw [htv] at h
          simp only [pure, Except.pure, Except.ok.injEq, Prod.mk.injEq] at h
          obtain ⟨h1, h2, -, -⟩ := h
          subst h1
          subst h2
          exact ⟨validate_text_no_star _ _ _ _ hiv, validate_text_no_star _ _ _ _ htv⟩

theorem setNote_bonds (m : Mol) (i : Nat) (s : String) : (m.setNote i s).bonds = m.bonds := rfl

theorem addBond_bonds (m : Mol) (i j : Nat) (bt : BondType) :
    (m.addBond i j bt).bonds = m.bonds ++ [(i, j, bt)] := rfl

theorem combine_bonds_length (A B : Mol) :
    (Mol.combine A B).bonds.length = A.bonds.length + B.bonds.length := by
  simp [Mol.combine]

theorem combine_bonds_countP (A B : Mol) :
    (Mol.combine A B).bonds.countP (fun b => b.2.2 == BondType.single)
      = A.bonds.countP (fun b => b.2.2 == BondType.single)
        + B.bonds.countP (fun b => b.2.2 == BondType.single) := by
  simp [Mol.combine, List.countP_append, List.countP_map]
  rfl

theorem idxsWhere_length (p : Atom → Bool) (l : List Atom) (k : Nat) :
    (idxsWhere p l k).length = l.countP p := by
  induction l generalizing k with
  | nil => simp [idxsWhere]
  | cons a as ih =>
    by_cases h : p a <;> simp [idxsWhere, h, ih, List.countP_cons]

theorem idxsWhere_get_zero (p : Atom → Bool) :
    ∀ (l : List Atom) (k i : Nat), (idxsWhere p l k).get? 0 = some i →
      k ≤ i ∧ ∃ a, l.get? (i - k) = some a ∧ p a = true := by
  intro l
  induction l with
  | nil =>
    intro k i h
    simp [idxsWhere] at h
  | cons a as ih =>
    intro k i h
    by_cases hp : p a
    · simp [idxsWhere, hp] at h
      subst h
      exact ⟨le_refl k, a, by simp, hp⟩
    · simp only [idxsWhere, hp, if_false] at h
      obtain ⟨hk, b, hb, hpb⟩ := ih (k + 1) i h
      refine ⟨by omega, b, ?_, hpb⟩
      have hik : i - k = (i - (k + 1)) + 1 := by omega
      rw [hik]
      simpa using hb

theorem countP_eraseIdx_dummy (p : Atom → Bool) :
    ∀ (l : List Atom) (i : Nat) (a : Atom), l.get? i = some a → p a = true →
      (l.eraseIdx i).countP p = l.countP p - 1 := by
  intro l
  induction l with
  | nil =>
    intro i a h
    simp at h
  | cons b bs ih =>
    intro i a h hp
    cases i with
    | zero =>
      simp at h
      subst h
      simp [List.eraseIdx, List.countP_cons, hp]
    | succ i =>
      simp at h
      have hget : bs.get? i = some a := by rw [List.get?_eq_getElem?]; exact h
      have hpos : 0 < bs.countP p := by
        rw [List.countP_pos_iff]
        exact ⟨a, List.get?_mem hget, hp⟩
      have hrec := ih i a hget hp
      simp only [List.eraseIdx, List.countP_cons]
      by_cases hb : p b <;> (simp [hb, hrec]; try omega)

theorem findNoted_noteAt (m : Mol) (s : String) (i : Nat)
    (h : m.findNoted s = some i) : m.noteAt i = some s := by
  unfold Mol.findNoted at h
  have hmem : i ∈ (m.notedIdxs.filter (fun j => m.noteAt j == some s)) := List.get?_mem h
  have := List.of_mem_filter hmem
  simpa using this

theorem remove_loop_spec :
    ∀ (k : Nat) (m fin : Mol), remove_loop k m = some fin →
      m.atoms.countP (fun a => a.atomicNum == 0) = k →
      fin.atoms.countP (fun a => a.atomicNum == 0) = 0 := by
  intro k
  induction k with
  | zero =>
    intro m fin h hc
    simp [remove_loop] at h
    subst h
    exact hc
  | succ k ih =>
    intro m fin h hc
    rw [remove_loop] at h
    split at h
    · exact absurd h (by simp)
    · rename_i i hi
      obtain ⟨-, a, ha, hpa⟩ := idxsWhere_get_zero _ _ _ _ hi
      simp only [Nat.sub_zero] at ha
      refine ih (m.removeAtom i) fin h ?_
      have hrm : (m.removeAtom i).atoms = m.atoms.eraseIdx i := rfl
      rw [hrm, countP_eraseIdx_dummy _ _ _ _ ha hpa, hc]
      omega

theorem attatch_loop_spec :
    ∀ (inators : List (Role × Mol)) (m fin : Mol) (log : List FusionStep),
      attatch_loop inators m = some (fin, log) →
      log.map (fun e => (e.role, e.inator)) = inators
      ∧ fin.bonds.length
          = m.bonds.length + (inators.map (fun ri => ri.2.bonds.length)).sum + inators.length
      ∧ fin.bonds.countP (fun b => b.2.2 == BondType.single)
          = m.bonds.countP (fun b => b.2.2 == BondType.single)
            + (inators.map (fun ri =>
                ri.2.bonds.countP (fun b => b.2.2 == BondType.single))).sum
            + inators.length
      ∧ ∀ e ∈ log,
          e.merged.noteAt e.bond_here
            = some (match e.role with | Role.initR => "head" | Role.termR => "tail")
          ∧ e.merged.noteAt e.attach_idx = some "attatch" := by
  intro inators
  induction inators with
  | nil =>
    intro m fin log h
    simp [attatch_loop] at h
    obtain ⟨h1, h2⟩ := h
    subst h1
    subst h2
    simp
  | cons ri rest ih =>
    intro m fin log h
    obtain ⟨role, inator⟩ := ri
    rw [attatch_loop] at h
    split at h
    · exact absurd h (by simp)
    · rename_i attatch hcand
      dsimp only at h
      split at h
      · exact absurd h (by simp)
      · rename_i ia hia
        split at h
        · exact absurd h (by simp)
        · rename_i bh hbh
          revert h
          cases hrest : attatch_loop rest
              ((((inator.setNote attatch "attatch").combine m).addBond bh ia
                BondType.single).setNote ia "done") with
          | none =>
            intro h
            exact absurd h (by simp)
          | some pr =>
            obtain ⟨fin2, log2⟩ := pr
            intro h
            simp only [Option.some.injEq, Prod.mk.injEq] at h
            obtain ⟨hfin, hlog⟩ := h
            subst hfin
            subst hlog
            obtain ⟨ihmap, ihlen, ihcount, ihnotes⟩ := ih _ _ _ hrest
            have hmb : ((inator.setNote attatch "attatch").combine m).bonds.length
                = inator.bonds.length + m.bonds.length := by
              rw [combine_bonds_length]
              rfl
            have hmc : ((inator.setNote attatch "attatch").combine m).bonds.countP
                  (fun b => b.2.2 == BondType.single)
                = inator.bonds.countP (fun b => b.2.2 == BondType.single)
                  + m.bonds.countP (fun b => b.2.2 == BondType.single) := by
              rw [combine_bonds_countP]
              rfl
            refine ⟨by simp [ihmap], ?_, ?_, ?_⟩
            · rw [ihlen]
              simp only [setNote_bonds, addBond_bonds, List.length_append,
                List.map_cons, List.sum_cons, List.length_cons]
              rw [hmb]
              simp only [List.length_cons, List.length_nil]
              omega
            · rw [ihcount]
              simp only [setNote_bonds, addBond_bonds, List.countP_append,
                List.map_cons, List.sum_cons, List.length_cons]
              rw [hmc]
              have hone : List.countP (fun b => b.2.2 == BondType.single)
                  [((bh, ia, BondType.single) : Nat × Nat × BondType)] = 1 := by
                simp [List.countP_cons]
              rw [hone]
              omega
            · intro e he
              rcases List.mem_cons.mp he with he | he
              · subst he
                refine ⟨?_, findNoted_noteAt _ _ _ hia⟩
                cases role
                · exact findNoted_noteAt _ _ _ hbh
                · exact findNoted_noteAt _ _ _ hbh
              · exact ihnotes e he

theorem attatch_frags_core (pol2 merged final : Mol) (inators : List (Role × Mol))
    (log : List FusionStep)
    (hloop : attatch_loop inators pol2 = some (merged, log))
    (hrem : remove_loop merged.fakeAtoms.length merged = some final) :
    final.atoms.countP (fun x => x.atomicNum == 0) = 0
    ∧ log.map (fun e => (e.role, e.inator)) = inators
    ∧ merged.bonds.length
        = pol2.bonds.length + (inators.map (fun ri => ri.2.bonds.length)).sum + log.length
    ∧ merged.bonds.countP (fun x => x.2.2 == BondType.single)
        = pol2.bonds.countP (fun x => x.2.2 == BondType.single)
          + (inators.map (fun ri =>
              ri.2.bonds.countP (fun x => x.2.2 == BondType.single))).sum
          + log.length
    ∧ ∀ e ∈ log,
        e.merged.noteAt e.bond_here
          = some (match e.role with | Role.initR => "head" | Role.termR => "tail")
        ∧ e.merged.noteAt e.attach_idx = some "attatch" := by
  obtain ⟨hmap, hlen, hcount, hnotes⟩ := attatch_loop_spec _ _ _ _ hloop
  have hlog : log.length = inators.length := by rw [← hmap, List.length_map]
  have hfa : merged.fakeAtoms.length = merged.atoms.countP (fun x => x.atomicNum == 0) :=
    idxsWhere_length _ _ _
  exact ⟨remove_loop_spec _ _ _ hrem hfa.symm, hmap, by omega, by omega, hnotes⟩

theorem attatch_frags_spec (pol : Mol) (bi bt : Bool) (mi mt : Mol)
    (final merged : Mol) (log : List FusionStep)
    (h : attatch_frags pol (bi, mi) (bt, mt) = some (final, merged, log)) :
    final.atoms.countP (fun x => x.atomicNum == 0) = 0
    ∧ log.map (fun e => (e.role, e.inator))
        = (if bi then [(Role.initR, mi)] else []) ++ (if bt then [(Role.termR, mt)] else [])
    ∧ merged.bonds.length
        = pol.bonds.length + (if bi then mi.bonds.length else 0)
          + (if bt then mt.bonds.length else 0) + log.length
    ∧ merged.bonds.countP (fun x => x.2.2 == BondType.single)
        = pol.bonds.countP (fun x => x.2.2 == BondType.single)
          + (if bi then mi.bonds.countP (fun x => x.2.2 == BondType.single) else 0)
          + (if bt then mt.bonds.countP (fun x => x.2.2 == BondType.single) else 0)
          + log.length
    ∧ ∀ e ∈ log,
        e.merged.noteAt e.bond_here
          = some (match e.role with | Role.initR => "head" | Role.termR => "tail")
        ∧ e.merged.noteAt e.attach_idx = some "attatch" := by
  unfold attatch_frags at h
  split at h
  · simp at h
  · rename_i conn hconn
    split at h
    · simp at h
    · rename_i pol2 inators hflags
      split at h
      · simp at h
      · rename_i mf log0 hloop
        split at h
        · simp at h
        · rename_i fin hrem
          simp only [Option.some.injEq, Prod.mk.injEq] at h
          obtain ⟨h1, h2, h3⟩ := h
          subst h1
          subst h2
          subst h3
          cases bi with
          | true =>
            cases bt with
            | true =>
              dsimp only at hflags
              split at hflags
              · simp at hflags
              · rename_i c0 hc0
                split at hflags
                · simp at hflags
                · rename_i c1 hc1
                  simp only [Option.some.injEq, Prod.mk.injEq] at hflags
                  obtain ⟨hp2, hin⟩ := hflags
                  subst hp2
                  subst hin
                  obtain ⟨r1, r2, r3, r4, r5⟩ := attatch_frags_core _ _ _ _ _ hloop hrem
                  simp only [setNote_bonds, List.map_cons, List.map_nil, List.sum_cons,
                    List.sum_nil] at r3 r4
                  refine ⟨r1, ?_, ?_, ?_, r5⟩
                  · simpa using r2
                  · simp only [eq_self_iff_true, if_true]
                    omega
                  · simp only [eq_self_iff_true, if_true]
                    omega
            | false =>
              dsimp only at hflags
              split at hflags
              · simp at hflags
              · rename_i c0 hc0
                simp only [Option.some.injEq, Prod.mk.injEq] at hflags
                obtain ⟨hp2, hin⟩ := hflags
                subst hp2
                subst hin
                obtain ⟨r1, r2, r3, r4, r5⟩ := attatch_frags_core _ _ _ _ _ hloop hrem
                simp only [setNote_bonds, List.map_cons, List.map_nil, List.sum_cons,
                  List.sum_nil] at r3 r4
                refine ⟨r1, ?_, ?_, ?_, r5⟩
                · simpa using r2
                · simp only [eq_self_iff_true, if_true, Bool.false_eq_true, if_false]
                  omega
                · simp only [eq_self_iff_true, if_true, Bool.false_eq_true, if_false]
                  omega
          | false =>
            cases bt with
            | true =>
              dsimp only at hflags
              split at hflags
              · simp at hflags
              · rename_i c0 hc0
                simp only [Option.some.injEq, Prod.mk.injEq] at hflags
                obtain ⟨hp2, hin⟩ := hflags
                subst hp2
                subst hin
                obtain ⟨r1, r2, r3, r4, r5⟩ := attatch_frags_core _ _ _ _ _ hloop hrem
                simp only [setNote_bonds, List.map_cons, List.map_nil, List.sum_cons,
                  List.sum_nil] at r3 r4
                refine ⟨r1, ?_, ?_, ?_, r5⟩
                · simpa using r2
                · simp only [eq_self_iff_true, if_true, Bool.false_eq_true, if_false]
                  omega
                · simp only [eq_self_iff_true, if_true, Bool.false_eq_true, if_false]
                  omega
            | false =>
              dsimp only at hflags
              simp at hflags

theorem createPolymerSMILES_fast (fuse : FuseFn) (idict mdict : Dict) (i t : Str)
    (r : Sum Str (List Str)) (n : Int) (a b ru : Str) (m : Int)
    (h : get_building_blocks idict mdict i t r = .ok (.text a, .text b, ru, m)) :
    createPolymerSMILES fuse idict mdict i n r t
      = .ok ((a ++ (List.replicate n.toNat ru).flatten ++ b, false), m) := by
  simp [createPolymerSMILES, h, add_inator_smiles, Bind.bind, Except.bind]

theorem pyRange_length (a b : Int) : (pyRange a b).length = (b - a).toNat := by
  unfold pyRange
  rw [List.length_map, List.length_range]

theorem pyRange_cons (a b : Int) (h : a < b) : pyRange a b = a :: pyRange (a + 1) b := by
  unfold pyRange
  have h1 : (b - a).toNat = (b - (a + 1)).toNat + 1 := by omega
  rw [h1, List.range_succ_eq_map]
  simp only [List.map_cons, List.map_map, Nat.cast_zero, add_zero]
  congr 1
  apply List.map_congr_left
  intro x hx
  simp only [Function.comp_apply]
  push_cast
  ring

theorem pyRange_mem_iff (a b j : Int) : j ∈ pyRange a b ↔ a ≤ j ∧ j < b := by
  simp only [pyRange, List.mem_map, List.mem_range]
  constructor
  · rintro ⟨k, hk, rfl⟩
    omega
  · rintro ⟨h1, h2⟩
    exact ⟨(j - a).toNat, by omega, by omega⟩

theorem pyRange_get (a b : Int) (k : Nat) (h : k < (b - a).toNat) :
    (pyRange a b).get? k = some (a + k) := by
  simp only [pyRange, List.get?_eq_getElem?, List.getElem?_map, List.getElem?_range h]
  rfl

theorem pyRange_ne_nil (a b : Int) (h : a < b) : pyRange a b ≠ [] := by
  rw [pyRange_cons a b h]
  simp

theorem plot_iter_simple {α β : Type} (optPol : Str → α × β) (fuse : FuseFn)
    (idict mdict : Dict) (i : Str) (r : Sum Str (List Str)) (t : Str)
    (confirm : Bool) (resp : Str) (j : Int) (st : LoopState α β)
    (s : Str) (g : Bool) (m : Int)
    (hj : confirm = true → 1 < j)
    (hc : createPolymerSMILES fuse idict mdict i j r t = .ok ((s, g), m)) :
    plot_iter optPol fuse idict mdict i r t confirm resp j st
      = Sum.inr { proceed := st.proceed,
                  POL_LIST := st.POL_LIST ++ [(optPol s).1],
                  SMI_LIST := st.SMI_LIST ++ [s],
                  Unopt := st.Unopt ++ [(optPol s).2],
                  m_per_n := some m, lastSmi := some s,
                  trace := st.trace ++ [Event.embedEv s] } := by
  unfold plot_iter
  have h1 : ¬(j = 1 ∧ confirm = true ∧ st.proceed = false) := by
    rintro ⟨rfl, hcf, -⟩
    exact absurd (hj hcf) (by omega)
  rw [if_neg h1]
  dsimp only
  have h2 : (1 < j ∨ confirm = false) := by
    cases confirm
    · exact Or.inr rfl
    · exact Or.inl (hj rfl)
  rw [if_pos h2, hc]

theorem plot_iter_confirm_accept {α β : Type} (optPol : Str → α × β) (fuse : FuseFn)
    (idict mdict : Dict) (i : Str) (r : Sum Str (List Str)) (t : Str)
    (resp : Str) (st : LoopState α β) (TS : Str × Bool) (s : Str) (g : Bool) (m : Int)
    (hp : st.proceed = false)
    (ht : createPolymerSMILES_test fuse idict mdict i 1 r t = .ok (TS, (s, g), m))
    (hacc : confirmStructure_accepts resp = true) :
    plot_iter optPol fuse idict mdict i r t true resp 1 st
      = Sum.inr { proceed := true,
                  POL_LIST := st.POL_LIST ++ [(optPol s).1],
                  SMI_LIST := st.SMI_LIST ++ [s],
                  Unopt := st.Unopt ++ [(optPol s).2],
                  m_per_n := some m, lastSmi := some s,
                  trace := (st.trace ++ [Event.confirmEv]) ++ [Event.embedEv s] } := by
  unfold plot_iter
  have h1 : ((1 : Int) = 1 ∧ true = true ∧ st.proceed = false) := ⟨rfl, rfl, hp⟩
  rw [if_pos h1, ht]
  dsimp only
  rw [hacc]
  have h2 : ¬((1 : Int) < 1 ∨ true = false) := by
    rintro (h | h) <;> simp at h
  simp only [if_neg h2]
  simp

theorem plot_iter_confirm_reject {α β : Type} (optPol : Str → α × β) (fuse : FuseFn)
    (idict mdict : Dict) (i : Str) (r : Sum Str (List Str)) (t : Str)
    (resp : Str) (st : LoopState α β) (TS : Str × Bool) (s : Str) (g : Bool) (m : Int)
    (hp : st.proceed = false)
    (ht : createPolymerSMILES_test fuse idict mdict i 1 r t = .ok (TS, (s, g), m))
    (hrej : confirmStructure_accepts resp = false) :
    plot_iter optPol fuse idict mdict i r t true resp 1 st
      = Sum.inl (.userAbort (st.trace ++ [Event.confirmEv])) := by
  unfold plot_iter
  have h1 : ((1 : Int) = 1 ∧ true = true ∧ st.proceed = false) := ⟨rfl, rfl, hp⟩
  rw [if_pos h1, ht]
  dsimp only
  rw [hrej]
  simp

theorem plot_loop_simple {α β : Type} (optPol : Str → α × β) (fuse : FuseFn)
    (idict mdict : Dict) (i : Str) (r : Sum Str (List Str)) (t : Str)
    (confirm : Bool) (resp : Str) (F : Int → Str) (G : Int → Bool) (m : Int) :
    ∀ (js : List Int) (st : LoopState α β),
      (∀ j ∈ js, confirm = true → 1 < j) →
      (∀ j ∈ js, createPolymerSMILES fuse idict mdict i j r t = .ok ((F j, G j), m)) →
      ∃ ls mp,
        polymer_plot_loop optPol fuse idict mdict i r t confirm resp js st
          = .done { proceed := st.proceed,
                    POL_LIST := st.POL_LIST ++ js.map (fun j => (optPol (F j)).1),
                    SMI_LIST := st.SMI_LIST ++ js.map F,
                    Unopt := st.Unopt ++ js.map (fun j => (optPol (F j)).2),
                    m_per_n := mp, lastSmi := ls,
                    trace := st.trace ++ js.map (fun j => Event.embedEv (F j)) }
        ∧ (js = [] → mp = st.m_per_n) ∧ (js ≠ [] → mp = some m) := by
  intro js
  induction js with
  | nil =>
    intro st hj hc
    refine ⟨st.lastSmi, st.m_per_n, ?_, fun _ => rfl, fun hne => absurd rfl hne⟩
    obtain ⟨p, PL, SL, UL, mp0, ls0, tr0⟩ := st
    simp [polymer_plot_loop]
  | cons j rest ih =>
    intro st hj hc
    rw [polymer_plot_loop]
    rw [plot_iter_simple optPol fuse idict mdict i r t confirm resp j st (F j) (G j) m
      (hj j (List.mem_cons_self j rest)) (hc j (List.mem_cons_self j rest))]
    obtain ⟨ls, mp, heq, hmp1, hmp2⟩ := ih
      { proceed := st.proceed,
        POL_LIST := st.POL_LIST ++ [(optPol (F j)).1],
        SMI_LIST := st.SMI_LIST ++ [F j],
        Unopt := st.Unopt ++ [(optPol (F j)).2],
        m_per_n := some m, lastSmi := some (F j),
        trace := st.trace ++ [Event.embedEv (F j)] }
      (fun x hx => hj x (List.mem_cons_of_mem j hx))
      (fun x hx => hc x (List.mem_cons_of_mem j hx))
    refine ⟨ls, mp, ?_, ?_, fun _ => ?_⟩
    · dsimp only
      rw [heq]
      obtain ⟨p, PL, SL, UL, mp0, ls0, tr0⟩ := st
      simp [List.append_assoc]
    · intro hh
      simp at hh
    · cases hrest : rest with
      | nil =>
        subst hrest
        exact hmp1 rfl
      | cons x xs =>
        subst hrest
        exact hmp2 (by simp)

theorem make_plot_quiet {α β : Type} (optPol : Str → α × β) (fuse : FuseFn)
    (idict mdict : Dict) (i : Str) (r : Sum Str (List Str)) (t : Str)
    (n : Int) (resp : Str) (F : Int → Str) (G : Int → Bool) (m : Int)
    (hn : 1 ≤ n)
    (hF : ∀ j ∈ pyRange 1 (n + 1),
      createPolymerSMILES fuse idict mdict i j r t = .ok ((F j, G j), m)) :
    make_One_or_More_Polymers optPol fuse idict mdict i n r t false resp true
      = (.ok (.plotOut ((pyRange 1 (n + 1)).map (fun j => (optPol (F j)).1))
                       ((pyRange 1 (n + 1)).map F)
                       ((pyRange 1 (n + 1)).map (fun j => (optPol (F j)).2)) m),
         (pyRange 1 (n + 1)).map (fun j => Event.embedEv (F j))) := by
  obtain ⟨ls, mp, heq, -, hmp2⟩ := plot_loop_simple optPol fuse idict mdict i r t false resp
    F G m (pyRange 1 (n + 1))
    { proceed := !false, POL_LIST := [], SMI_LIST := [], Unopt := [],
      m_per_n := none, lastSmi := none, trace := [] }
    (fun x hx hcf => absurd hcf (by simp))
    hF
  have hmp : mp = some m := hmp2 (pyRange_ne_nil 1 (n + 1) (by omega))
  subst hmp
  unfold make_One_or_More_Polymers
  simp only [eq_self_iff_true, if_true]
  rw [heq]
  simp

theorem plot_loop_confirm_accept {α β : Type} (optPol : Str → α × β) (fuse : FuseFn)
    (idict mdict : Dict) (i : Str) (r : Sum Str (List Str)) (t : Str)
    (resp : Str) (F : Int → Str) (G : Int → Bool) (m : Int) (TS : Str × Bool)
    (js : List Int) (st : LoopState α β)
    (hp : st.proceed = false)
    (hFt : createPolymerSMILES_test fuse idict mdict i 1 r t = .ok (TS, (F 1, G 1), m))
    (hacc : confirmStructure_accepts resp = true)
    (hj : ∀ j ∈ js, 1 < j)
    (hF2 : ∀ j ∈ js, createPolymerSMILES fuse idict mdict i j r t = .ok ((F j, G j), m)) :
    ∃ ls,
      polymer_plot_loop optPol fuse idict mdict i r t true resp (1 :: js) st
        = .done { proceed := true,
                  POL_LIST := st.POL_LIST ++ (1 :: js).map (fun j => (optPol (F j)).1),
                  SMI_LIST := st.SMI_LIST ++ (1 :: js).map F,
                  Unopt := st.Unopt ++ (1 :: js).map (fun j => (optPol (F j)).2),
                  m_per_n := some m, lastSmi := ls,
                  trace := (st.trace ++ [Event.confirmEv])
                    ++ (1 :: js).map (fun j => Event.embedEv (F j)) } := by
  rw [polymer_plot_loop]
  rw [plot_iter_confirm_accept optPol fuse idict mdict i r t resp st TS (F 1) (G 1) m
      hp hFt hacc]
  dsimp only
  obtain ⟨ls, mp, heq, hmp1, hmp2⟩ := plot_loop_simple optPol fuse idict mdict i r t true resp
    F G m js
    { proceed := true,
      POL_LIST := st.POL_LIST ++ [(optPol (F 1)).1],
      SMI_LIST := st.SMI_LIST ++ [F 1],
      Unopt := st.Unopt ++ [(optPol (F 1)).2],
      m_per_n := some m, lastSmi := some (F 1),
      trace := (st.trace ++ [Event.confirmEv]) ++ [Event.embedEv (F 1)] }
    (fun x hx _ => hj x hx)
    hF2
  have hmp : mp = some m := by
    by_cases hre : js = []
    · exact hmp1 hre
    · exact hmp2 hre
  subst hmp
  refine ⟨ls, ?_⟩
  rw [heq]
  simp [List.append_assoc]

theorem make_plot_accepted {α β : Type} (optPol : Str → α × β) (fuse : FuseFn)
    (idict mdict : Dict) (i : Str) (r : Sum Str (List Str)) (t : Str)
    (n : Int) (resp : Str) (F : Int → Str) (G : Int → Bool) (m : Int) (TS : Str × Bool)
    (hn : 1 ≤ n)
    (hFt : createPolymerSMILES_test fuse idict mdict i 1 r t = .ok (TS, (F 1, G 1), m))
    (hF : ∀ j ∈ pyRange 1 (n + 1),
      createPolymerSMILES fuse idict mdict i j r t = .ok ((F j, G j), m))
    (hacc : confirmStructure_accepts resp = true) :
    make_One_or_More_Polymers optPol fuse idict mdict i n r t true resp true
      = (.ok (.plotOut ((pyRange 1 (n + 1)).map (fun j => (optPol (F j)).1))
                       ((pyRange 1 (n + 1)).map F)
                       ((pyRange 1 (n + 1)).map (fun j => (optPol (F j)).2)) m),
         Event.confirmEv :: (pyRange 1 (n + 1)).map (fun j => Event.embedEv (F j))) := by
  have hcons := pyRange_cons 1 (n + 1) (by omega)
  have hj2 : ∀ j ∈ pyRange 2 (n + 1), 1 < j := by
    intro j hj
    have := (pyRange_mem_iff 2 (n + 1) j).mp hj
    omega
  have hF2 : ∀ j ∈ pyRange 2 (n + 1),
      createPolymerSMILES fuse idict mdict i j r t = .ok ((F j, G j), m) := by
    intro j hj
    apply hF
    rw [pyRange_mem_iff]
    have := (pyRange_mem_iff 2 (n + 1) j).mp hj
    omega
  have h21 : ((1 : Int) + 1) = 2 := by norm_num
  obtain ⟨ls, heq⟩ := plot_loop_confirm_accept optPol fuse idict mdict i r t resp F G m TS
    (pyRange 2 (n + 1))
    { proceed := !true, POL_LIST := [], SMI_LIST := [], Unopt := [],
      m_per_n := none, lastSmi := none, trace := [] }
    rfl hFt hacc hj2 hF2
  unfold make_One_or_More_Polymers
  simp only [eq_self_iff_true, if_true]
  rw [hcons, h21, heq]
  simp

theorem make_plot_rejected {α β : Type} (optPol : Str → α × β) (fuse : FuseFn)
    (idict mdict : Dict) (i : Str) (r : Sum Str (List Str)) (t : Str)
    (n : Int) (resp : Str) (TS full : Str × Bool) (m : Int)
    (hn : 1 ≤ n)
    (hFt : createPolymerSMILES_test fuse idict mdict i 1 r t = .ok (TS, full, m))
    (hrej : confirmStructure_accepts resp = false) :
    make_One_or_More_Polymers optPol fuse idict mdict i n r t true resp true
      = (.aborted, [Event.confirmEv]) := by
  have hcons := pyRange_cons 1 (n + 1) (by omega)
  unfold make_One_or_More_Polymers
  simp only [eq_self_iff_true, if_true]
  rw [hcons, polymer_plot_loop]
  rw [plot_iter_confirm_reject optPol fuse idict mdict i r t resp
      { proceed := !true, POL_LIST := [], SMI_LIST := [], Unopt := [],
        m_per_n := none, lastSmi := none, trace := [] }
      TS full.1 full.2 m rfl (by simpa using hFt) hrej]
  simp

/-! ## Claim theorems -/

/-- C1 (code bug witnessed): the code's monomers-per-repeat computation.
`sum_implicit_coefs = len(deciphered) - len(explicit_coefs)` is always `0`
because both list comprehensions run over the same list, so the returned
count is only the sum of the explicit single-character coefficients: for
`2 A B` (with `A ↦ CC`, `B ↦ CCO`) the code returns 2 where the spec (and
the code's own comment, which wants `AABBB`-style groupings counted as 5
monomers) requires 3; for `A B`, with no explicit multipliers, the code
returns 0 where the spec requires the token count 2. -/
theorem c1_monomers_per_repeat_eval :
    get_building_blocks idict0 mdict0 (strL "") (strL "")
        (Sum.inr [strL "2", strL "A", strL "B"])
      = .ok (.text [], .text [], strL "CCCCCCO", 2)
    ∧ get_building_blocks idict0 mdict0 (strL "") (strL "")
        (Sum.inr [strL "A", strL "B"])
      = .ok (.text [], .text [], strL "CCCCO", 0) :=
  ⟨rfl, rfl⟩

/-- C2 (counterexample to the claim as stated): a chain whose repeat unit
itself carries a placeholder marker (raw SMILES `C*C`, empty end groups)
completes end-group attachment on the fast string path (fusion flag
`false`), yet the completed notation still contains the placeholder marker,
so the parsed chain structure has an atomic-number-0 atom — the
"zero open-valence placeholder atoms on either path" clause fails. -/
theorem c2_fast_path_counterexample :
    createPolymerSMILES fuseId idict0 mdict0 (strL "") 1
        (Sum.inr [strL "C*C"]) (strL "")
      = .ok ((strL "C*C", false), 0)
    ∧ hasPlaceholder (strL "C*C") = true :=
  ⟨rfl, rfl⟩

/-- C2 (amended): whenever `attatch_frags` completes, the resulting
structure has zero placeholder (atomic-number-0) atoms, the fusion log has
exactly one entry per requested end (initiator first), each entry's bond is
formed between the chain atom tagged for that end's role ("head"/"tail")
and the end group's "attatch"-tagged pending atom, and the merged molecule
gained exactly one bond — a SINGLE bond — per fused end over the bonds of
the chain and the fused end groups; on the fast string path (both validator
results plain text) the completed notation is placeholder-free provided the
repeat-unit fragment itself contains no marker (text end groups are always
marker-free because the validator strips markers). -/
theorem c2_end_attachment_amended (pol : Mol) (bi bt : Bool) (mi mt : Mol)
    (final merged : Mol) (log : List FusionStep)
    (fuse : FuseFn) (idict mdict : Dict) (i t : Str) (r : Sum Str (List Str))
    (a b ru : Str) (mpn n : Int) :
    (attatch_frags pol (bi, mi) (bt, mt) = some (final, merged, log) →
      final.atoms.countP (fun x => x.atomicNum == 0) = 0
      ∧ log.map (fun e => (e.role, e.inator))
          = (if bi then [(Role.initR, mi)] else [])
            ++ (if bt then [(Role.termR, mt)] else [])
      ∧ merged.bonds.length
          = pol.bonds.length + (if bi then mi.bonds.length else 0)
            + (if bt then mt.bonds.length else 0) + log.length
      ∧ merged.bonds.countP (fun x => x.2.2 == BondType.single)
          = pol.bonds.countP (fun x => x.2.2 == BondType.single)
            + (if bi then mi.bonds.countP (fun x => x.2.2 == BondType.single) else 0)
            + (if bt then mt.bonds.countP (fun x => x.2.2 == BondType.single) else 0)
            + log.length
      ∧ ∀ e ∈ log,
          e.merged.noteAt e.bond_here
            = some (match e.role with | Role.initR => "head" | Role.termR => "tail")
          ∧ e.merged.noteAt e.attach_idx = some "attatch")
    ∧ (get_building_blocks idict mdict i t r = .ok (.text a, .text b, ru, mpn) →
       '*' ∉ ru →
       createPolymerSMILES fuse idict mdict i n r t
         = .ok ((a ++ (List.replicate n.toNat ru).flatten ++ b, false), mpn)
       ∧ '*' ∉ (a ++ (List.replicate n.toNat ru).flatten ++ b)) := by
  constructor
  · exact attatch_frags_spec pol bi bt mi mt final merged log
  · intro hgbb hru
    obtain ⟨ha, hb⟩ := gbb_text_no_star _ _ _ _ _ _ _ _ _ hgbb
    refine ⟨createPolymerSMILES_fast _ _ _ _ _ _ _ _ _ _ _ hgbb, ?_⟩
    intro hmem
    simp only [List.mem_append, List.mem_flatten] at hmem
    rcases hmem with (hmem | ⟨l, hl, hml⟩) | hmem
    · exact ha hmem
    · rw [List.eq_of_mem_replicate hl] at hml
      exact hru hml
    · exact hb hmem

/-- C2 witness: the amended theorem applied to the concrete fused chain
`*C` with backward initiator `C*`, and to the concrete fast-path family
(repeat unit `CC`, empty end groups, `n = 2`). -/
theorem c2_end_attachment_amended_witness :
    attatch_frags polEx (true, inatorEx) (false, inatorEx)
      = some (finalEx, mergedEx, logEx)
    ∧ (finalEx.atoms.countP (fun x => x.atomicNum == 0) = 0
      ∧ logEx.map (fun e => (e.role, e.inator))
          = (if true then [(Role.initR, inatorEx)] else [])
            ++ (if false then [(Role.termR, inatorEx)] else [])
      ∧ mergedEx.bonds.length
          = polEx.bonds.length + (if true then inatorEx.bonds.length else 0)
            + (if false then inatorEx.bonds.length else 0) + logEx.length
      ∧ mergedEx.bonds.countP (fun x => x.2.2 == BondType.single)
          = polEx.bonds.countP (fun x => x.2.2 == BondType.single)
            + (if true then inatorEx.bonds.countP (fun x => x.2.2 == BondType.single) else 0)
            + (if false then inatorEx.bonds.countP (fun x => x.2.2 == BondType.single) else 0)
            + logEx.length
      ∧ ∀ e ∈ logEx,
          e.merged.noteAt e.bond_here
            = some (match e.role with | Role.initR => "head" | Role.termR => "tail")
          ∧ e.merged.noteAt e.attach_idx = some "attatch")
    ∧ (createPolymerSMILES fuseId idict0 mdict0 (strL "") 2
          (Sum.inr [strL "A"]) (strL "")
        = .ok ((strL "" ++ (List.replicate (2 : Int).toNat (strL "CC")).flatten
            ++ strL "", false), 0)
      ∧ '*' ∉ (strL "" ++ (List.replicate (2 : Int).toNat (strL "CC")).flatten
            ++ strL "")) := by
  refine ⟨by decide, ?_, ?_⟩
  · exact (c2_end_attachment_amended polEx true false inatorEx inatorEx finalEx mergedEx
      logEx fuseId idict0 mdict0 (strL "") (strL "") (Sum.inr [strL "A"]) [] []
      (strL "CC") 0 2).1 (by decide)
  · exact (c2_end_attachment_amended polEx true false inatorEx inatorEx finalEx mergedEx
      logEx fuseId idict0 mdict0 (strL "") (strL "") (Sum.inr [strL "A"]) [] []
      (strL "CC") 0 2).2 rfl (by decide)

/-- C3: for an end-group fragment whose boundary character (first for an
initiator, last for a terminator) is not the placeholder marker,
`validate_end_group` raises a validation error iff the fragment is not
palindromic and contains no marker anywhere; otherwise it returns the
fragment with all markers removed; a palindromic marker-free fragment (in
particular the empty fragment) is returned unchanged. -/
theorem c3_boundary_marker_validation (f : Str) (isInit : Bool)
    (hb : (if isInit then f.head? else f.getLast?) ≠ some '*') :
    (validate_end_group f isInit (!isInit) = .error .valueError
      ↔ (f ≠ f.reverse ∧ '*' ∉ f))
    ∧ ((f = f.reverse ∨ '*' ∈ f) →
        validate_end_group f isInit (!isInit)
          = .ok (.text (f.filter (fun c => c != '*'))))
    ∧ ((f = f.reverse ∧ '*' ∉ f) →
        validate_end_group f isInit (!isInit) = .ok (.text f))
    ∧ (f = [] → validate_end_group f isInit (!isInit) = .ok (.text f)) := by
  have hguard : ¬(isInit = false ∧ (!isInit) = false) := by cases isInit <;> simp
  have hfirst : ¬(f ≠ [] ∧ (if isInit then f.head? else f.getLast?) = some '*') :=
    fun h => hb h.2
  unfold validate_end_group
  rw [if_neg hguard, if_neg hfirst]
  by_cases hbad : f ≠ f.reverse ∧ '*' ∉ f
  · rw [if_pos hbad]
    refine ⟨by simp [hbad], ?_, ?_, ?_⟩
    · intro h
      rcases h with h | h
      · exact absurd h hbad.1
      · exact absurd h hbad.2
    · intro h
      exact absurd h.1 hbad.1
    · intro h
      subst h
      exact absurd rfl hbad.1
  · rw [if_neg hbad]
    refine ⟨iff_of_false (by simp) hbad, fun _ => rfl, ?_, ?_⟩
    · intro h
      have hf : f.filter (fun c => c != '*') = f :=
        List.filter_eq_self.mpr (fun x hx => by
          simp only [bne_iff_ne, ne_eq]
          rintro rfl
          exact h.2 hx)
      rw [hf]
    · intro h
      subst h
      rfl

/-- C3 witness: the palindromic marker-free initiator fragment `CC`. -/
theorem c3_boundary_marker_validation_witness :
    ((if true then (strL "CC").head? else (strL "CC").getLast?) ≠ some '*')
    ∧ ((validate_end_group (strL "CC") true (!true) = .error .valueError
          ↔ (strL "CC" ≠ (strL "CC").reverse ∧ '*' ∉ strL "CC"))
      ∧ ((strL "CC" = (strL "CC").reverse ∨ '*' ∈ strL "CC") →
          validate_end_group (strL "CC") true (!true)
            = .ok (.text ((strL "CC").filter (fun c => c != '*'))))
      ∧ ((strL "CC" = (strL "CC").reverse ∧ '*' ∉ strL "CC") →
          validate_end_group (strL "CC") true (!true) = .ok (.text (strL "CC")))
      ∧ (strL "CC" = [] →
          validate_end_group (strL "CC") true (!true) = .ok (.text (strL "CC")))) :=
  ⟨by decide, c3_boundary_marker_validation (strL "CC") true (by decide)⟩

/-- C4 (counterexample to the claim as stated): with both role flags set,
`validate_end_group` does not fail — the guard only rejects the
neither-flag case, and with `Init=True, Term=True` the palindromic fragment
`CC` is validated as an initiator and returned. -/
theorem c4_both_flags_accepted_counterexample :
    validate_end_group (strL "CC") true true = .ok (.text (strL "CC")) := rfl

/-- C4 (amended): `validate_end_group` fails with the configuration error
exactly when neither role flag is set; when both flags are set it behaves
exactly as if only `Init` were set (`Init` takes precedence via
`idx = 0`). -/
theorem c4_role_flags_amended (f : Str) :
    validate_end_group f false false = .error .valueError
    ∧ validate_end_group f true true = validate_end_group f true false := by
  constructor
  · simp [validate_end_group]
  · simp [validate_end_group]

/-- C5 (counterexample to the claim as stated): the single-key path is a
plain dictionary lookup, not lookup-or-literal: for the unknown key `Q` the
resolver raises `KeyError`, while the spec's lookup-or-literal rule would
have returned the literal `Q` itself. -/
theorem c5_single_key_counterexample :
    get_building_blocks idict0 mdict0 (strL "") (strL "") (Sum.inl (strL "Q"))
      = .error .keyError
    ∧ monomer_smi_lookup mdict0 (strL "Q") = .error .keyError
    ∧ spec_lookup_or_literal mdict0 (strL "Q") = strL "Q" :=
  ⟨rfl, rfl, rfl⟩

/-- C5 (amended): for a single-key input the resolver resolves by
dictionary lookup only: a known key yields the dictionary entry as the
repeat-unit fragment (hence non-empty whenever the entry is) with
monomers-per-repeat 1, and an unknown key raises a lookup error rather
than falling back to the literal string. -/
theorem c5_single_key_amended (idict mdict : Dict) (i t k v : Str) (iv tv : EndVal)
    (hk : mdict k = some v)
    (hi : validate_end_group ((idict i).getD i) true false = .ok iv)
    (ht : validate_end_group ((idict t).getD t) false true = .ok tv) :
    get_building_blocks idict mdict i t (Sum.inl k) = .ok (iv, tv, v, 1)
    ∧ ∀ q, mdict q = none → monomer_smi_lookup mdict q = .error .keyError := by
  constructor
  · simp [get_building_blocks, inator_smi_lookup, monomer_smi_lookup, hk, hi, ht,
      Bind.bind, Except.bind]
  · intro q hq
    simp [monomer_smi_lookup, hq]

/-- C5 witness: the known key `A` with empty end groups. -/
theorem c5_single_key_amended_witness :
    get_building_blocks idict0 mdict0 (strL "") (strL "") (Sum.inl (strL "A"))
      = .ok (.text [], .text [], strL "CC", 1) :=
  (c5_single_key_amended idict0 mdict0 (strL "") (strL "") (strL "A") (strL "CC")
    (.text []) (.text []) rfl rfl rfl).1

/-- C6: when both validator results are plain text, building the chain of
any length `n` never invokes structural fusion (the returned flag mirrors
`add_terminator or add_initiator` at line 210 and is `false`, so the result
does not depend on the fusion collaborator `fuse` at all), and the final
notation is the initiator fragment, then `n` copies of the repeat unit,
then the terminator fragment. -/
theorem c6_fast_path_concatenation (fuse : FuseFn) (idict mdict : Dict) (i t : Str)
    (r : Sum Str (List Str)) (n : Int) (a b ru : Str) (m : Int)
    (h : get_building_blocks idict mdict i t r = .ok (.text a, .text b, ru, m)) :
    createPolymerSMILES fuse idict mdict i n r t
      = .ok ((a ++ (List.replicate n.toNat ru).flatten ++ b, false), m) :=
  createPolymerSMILES_fast fuse idict mdict i t r n a b ru m h

/-- C6 witness: repeat unit `CC` (key `A`), empty end groups, `n = 2`. -/
theorem c6_fast_path_concatenation_witness :
    createPolymerSMILES fuseId idict0 mdict0 (strL "") 2 (Sum.inr [strL "A"]) (strL "")
      = .ok ((strL "" ++ (List.replicate (2 : Int).toNat (strL "CC")).flatten
          ++ strL "", false), 0) :=
  c6_fast_path_concatenation fuseId idict0 mdict0 (strL "") (strL "")
    (Sum.inr [strL "A"]) 2 [] [] (strL "CC") 0 rfl

/-- C7: the token-scanning loop of the resolver computes exactly the spec's
description — the in-order concatenation of the non-numeric tokens, each
repeated by the multiplier given by the immediately preceding numeric token
(default 1, reset after use) — and on the concrete specification `2 A B`
(`A ↦ CC`, `B ↦ CCO`) the resolved fragment is
`fragment(A) + fragment(A) + fragment(B)`. -/
theorem c7_multi_token_resolution :
    (∀ toks : List Str, repeat_unit_loop toks 1 [] = spec_multi_fragment toks)
    ∧ get_building_blocks idict0 mdict0 (strL "") (strL "")
        (Sum.inr [strL "2", strL "A", strL "B"])
      = .ok (.text [], .text [], strL "CC" ++ strL "CC" ++ strL "CCO", 2) := by
  constructor
  · intro toks
    rw [repeat_unit_loop_eq_spec, spec_with_mult_one]
  · rfl

/-- C10: with neither repeat form supplied, or with `single` absent and
`super` the empty list, `getRepeatUnit` raises `IndexError` from indexing
the empty filtered list (falsy values — `None`, empty string, empty list —
are silently dropped by `filter(None, ...)` before selection), in contrast
to the descriptive `TypeError` raised when both forms are supplied. -/
theorem c10_empty_selection_indexerror :
    getRepeatUnit none none = .error .indexError
    ∧ getRepeatUnit none (some []) = .error .indexError
    ∧ getRepeatUnit (some []) none = .error .indexError
    ∧ (∀ s l, getRepeatUnit (some s) (some l) = .error .typeError) := by
  refine ⟨rfl, rfl, rfl, ?_⟩
  intro s l
  simp [getRepeatUnit]

/-- C8: for `n ≥ 1`, the plot-mode driver over the range `1..n` (in quiet
mode or with an accepted confirmation) returns exactly `n` structures and
exactly `n` notations, appended in increasing length order — the entry at
0-based position `k` is the chain built with `k + 1` repeat passes
(`F (1 + k)`, where `F j` is the notation `createPolymerSMILES` produces
for length `j`) — together with the shared monomers-per-repeat count `m`
common to all lengths, so that the effective chain length of the 1-based
`i`-th entry is `i * m` monomer units. -/
theorem c8_family_driver {α β : Type} (optPol : Str → α × β) (fuse : FuseFn)
    (idict mdict : Dict) (i : Str) (r : Sum Str (List Str)) (t : Str)
    (n : Int) (confirm : Bool) (resp : Str)
    (F : Int → Str) (G : Int → Bool) (m : Int) (TS : Str × Bool)
    (hn : 1 ≤ n)
    (hF : ∀ j ∈ pyRange 1 (n + 1),
      createPolymerSMILES fuse idict mdict i j r t = .ok ((F j, G j), m))
    (hmode : confirm = false
      ∨ (confirm = true ∧ confirmStructure_accepts resp = true
         ∧ createPolymerSMILES_test fuse idict mdict i 1 r t = .ok (TS, (F 1, G 1), m))) :
    (make_One_or_More_Polymers optPol fuse idict mdict i n r t confirm resp true).1
        = .ok (.plotOut ((pyRange 1 (n + 1)).map (fun j => (optPol (F j)).1))
                        ((pyRange 1 (n + 1)).map F)
                        ((pyRange 1 (n + 1)).map (fun j => (optPol (F j)).2)) m)
    ∧ ((pyRange 1 (n + 1)).map F).length = n.toNat
    ∧ ((pyRange 1 (n + 1)).map (fun j => (optPol (F j)).1)).length = n.toNat
    ∧ (∀ k : Nat, k < n.toNat →
        ((pyRange 1 (n + 1)).map F).get? k = some (F (1 + (k : Int)))) := by
  refine ⟨?_, ?_, ?_, ?_⟩
  · rcases hmode with hq | ⟨hc1, hacc, hFt⟩
    · subst hq
      rw [make_plot_quiet optPol fuse idict mdict i r t n resp F G m hn hF]
    · subst hc1
      rw [make_plot_accepted optPol fuse idict mdict i r t n resp F G m TS hn hFt hF hacc]
  · rw [List.length_map, pyRange_length]
    omega
  · rw [List.length_map, pyRange_length]
    omega
  · intro k hk
    have hg := pyRange_get 1 (n + 1) k (by omega)
    rw [List.get?_eq_getElem?] at hg ⊢
    rw [List.getElem?_map, hg]
    rfl

/-- C8 witness: quiet-mode family of lengths `1..2` over repeat unit `CC`. -/
theorem c8_family_driver_witness :
    (make_One_or_More_Polymers optPolU fuseId idict0 mdict0 (strL "") 2
        (Sum.inr [strL "A"]) (strL "") false [] true).1
      = .ok (.plotOut ((pyRange 1 (2 + 1)).map (fun j => (optPolU (Fex j)).1))
                      ((pyRange 1 (2 + 1)).map Fex)
                      ((pyRange 1 (2 + 1)).map (fun j => (optPolU (Fex j)).2)) 0)
    ∧ ((pyRange 1 (2 + 1)).map Fex).length = (2 : Int).toNat
    ∧ ((pyRange 1 (2 + 1)).map (fun j => (optPolU (Fex j)).1)).length = (2 : Int).toNat := by
  have h := c8_family_driver optPolU fuseId idict0 mdict0 (strL "") (Sum.inr [strL "A"])
    (strL "") 2 false [] Fex (fun _ => false) 0 ([], false)
    (by norm_num) (by decide) (Or.inl rfl)
  exact ⟨h.1, h.2.1, h.2.2.1⟩

/-- C9: in the plot-mode driver, the quiet run never shows a confirmation
prompt (its trace is exactly the embedding calls); with confirmation
enabled and an affirmative or empty response the trace is exactly one
confirmation prompt — before any 3D embedding call — followed by the `n`
embedding calls (so the prompt is shown exactly once per run even for a
whole family); with any other response the run aborts after the single
prompt with no embedding call ever performed. -/
theorem c9_confirmation_gate {α β : Type} (optPol : Str → α × β) (fuse : FuseFn)
    (idict mdict : Dict) (i : Str) (r : Sum Str (List Str)) (t : Str)
    (n : Int) (resp1 resp2 respq : Str)
    (F : Int → Str) (G : Int → Bool) (m : Int) (TS : Str × Bool)
    (hn : 1 ≤ n)
    (hFt : createPolymerSMILES_test fuse idict mdict i 1 r t = .ok (TS, (F 1, G 1), m))
    (hF : ∀ j ∈ pyRange 1 (n + 1),
      createPolymerSMILES fuse idict mdict i j r t = .ok ((F j, G j), m))
    (hacc : confirmStructure_accepts resp1 = true)
    (hrej : confirmStructure_accepts resp2 = false) :
    ((make_One_or_More_Polymers optPol fuse idict mdict i n r t false respq true).2.count
        Event.confirmEv = 0
      ∧ (make_One_or_More_Polymers optPol fuse idict mdict i n r t false respq true).2
          = (pyRange 1 (n + 1)).map (fun j => Event.embedEv (F j)))
    ∧ ((make_One_or_More_Polymers optPol fuse idict mdict i n r t true resp1 true).2
          = Event.confirmEv :: (pyRange 1 (n + 1)).map (fun j => Event.embedEv (F j))
      ∧ (make_One_or_More_Polymers optPol fuse idict mdict i n r t true resp1 true).2.count
          Event.confirmEv = 1)
    ∧ make_One_or_More_Polymers optPol fuse idict mdict i n r t true resp2 true
        = (.aborted, [Event.confirmEv]) := by
  have hq := make_plot_quiet optPol fuse idict mdict i r t n respq F G m hn hF
  have ha := make_plot_accepted optPol fuse idict mdict i r t n resp1 F G m TS hn hFt hF hacc
  have hr := make_plot_rejected optPol fuse idict mdict i r t n resp2 TS (F 1, G 1) m hn hFt hrej
  have hcount0 : ((pyRange 1 (n + 1)).map
      (fun j => Event.embedEv (F j))).count Event.confirmEv = 0 := by
    rw [List.count_eq_zero]
    intro hmem
    obtain ⟨j, -, hj⟩ := List.mem_map.mp hmem
    simp at hj
  refine ⟨⟨?_, ?_⟩, ⟨?_, ?_⟩, hr⟩
  · rw [hq]
    exact hcount0
  · rw [hq]
  · rw [ha]
  · rw [ha]
    simp only [List.count_cons]
    rw [hcount0]
    simp

/-- C9 witness: length range `1..2` over repeat unit `CC`; the empty
response accepts, the response `n` rejects. -/
theorem c9_confirmation_gate_witness :
    ((make_One_or_More_Polymers optPolU fuseId idict0 mdict0 (strL "") 2
        (Sum.inr [strL "A"]) (strL "") false [] true).2.count Event.confirmEv = 0
      ∧ (make_One_or_More_Polymers optPolU fuseId idict0 mdict0 (strL "") 2
          (Sum.inr [strL "A"]) (strL "") false [] true).2
          = (pyRange 1 (2 + 1)).map (fun j => Event.embedEv (Fex j)))
    ∧ ((make_One_or_More_Polymers optPolU fuseId idict0 mdict0 (strL "") 2
          (Sum.inr [strL "A"]) (strL "") true [] true).2
          = Event.confirmEv :: (pyRange 1 (2 + 1)).map (fun j => Event.embedEv (Fex j))
      ∧ (make_One_or_More_Polymers optPolU fuseId idict0 mdict0 (strL "") 2
          (Sum.inr [strL "A"]) (strL "") true [] true).2.count Event.confirmEv = 1)
    ∧ make_One_or_More_Polymers optPolU fuseId idict0 mdict0 (strL "") 2
        (Sum.inr [strL "A"]) (strL "") true (strL "n") true
        = (.aborted, [Event.confirmEv]) :=
  c9_confirmation_gate optPolU fuseId idict0 mdict0 (strL "") (Sum.inr [strL "A"])
    (strL "") 2 [] (strL "n") [] Fex (fun _ => false) 0 (strL "CC", false)
    (by norm_num) (by decide) (by decide) (by decide) (by decide)

end MHP
